import Mathlib

/-!
Verification of the kpi-data-generator integration client.

This development shallowly embeds the Python sources
(`src/core/clients/domain_mgmt.py` and the reconciliation pipeline in
`src/core/tests/test_model_definition.py` / `test_query_model.py`) into Lean.

Modelling conventions:
* JSON values (and the dynamic Python values the scripts manipulate) are the
  inductive `Json`.  Python `None` is `Json.null`.
* Python numbers (int and float) are modelled as exact rationals.  Every
  numeric literal the claims exercise (such as 42.0) is exactly representable.
* Fallible Python code runs in `Except PyErr`; each Python exception class the
  embedded code can raise is a `PyErr` constructor.  `json.JSONDecodeError`
  is `PyErr.jsonDecodeError` and `httpx.HTTPStatusError` is
  `PyErr.httpStatusError`.
* The HTTP transport is an oracle `HttpRequest → HttpResponse`; the embedded
  client functions also return the list of requests they hand to it, so that
  "an HTTP request was attempted" is expressible.
-/

/-- A JSON value / dynamic Python value.  `null` doubles as Python `None`. -/
inductive Json where
  | null
  | bool (b : Bool)
  | num (q : ℚ)
  | str (s : String)
  | arr (xs : List Json)
  | obj (fields : List (String × Json))

/-- Python exception classes raised by the embedded code. -/
inductive PyErr where
  | valueError
  | typeError
  | keyError
  | attributeError
  | runtimeError
  | jsonDecodeError
  | httpStatusError (status : Nat)
  deriving DecidableEq

/-- Python truthiness (`if x:`) for the values the client handles. -/
def pyTruthy : Json → Bool
  | .null => false
  | .bool b => b
  | .num q => !(q == 0)
  | .str s => !(s == "")
  | .arr xs => !xs.isEmpty
  | .obj fs => !fs.isEmpty

def pyIsNull : Json → Bool
  | .null => true
  | _ => false

/-- Python `==` between dynamic values.  `bool` compares equal to the
numerically equal number, as in Python (`True == 1`).  Mappings are compared
field-by-field in order; Python compares dicts unordered, but no claim
compares two mappings for equality. -/
def pyEq : Json → Json → Bool
  | .null, .null => true
  | .bool a, .bool b => a == b
  | .bool a, .num q => ((if a then (1 : ℚ) else 0) == q)
  | .num q, .bool b => (q == (if b then (1 : ℚ) else 0))
  | .num a, .num b => a == b
  | .str a, .str b => a == b
  | .arr a, .arr b => pyEqList a b
  | .obj a, .obj b => pyEqPairs a b
  | _, _ => false
where
  pyEqList : List Json → List Json → Bool
    | [], [] => true
    | a :: as, b :: bs => pyEq a b && pyEqList as bs
    | _, _ => false
  pyEqPairs : List (String × Json) → List (String × Json) → Bool
    | [], [] => true
    | (k1, v1) :: as, (k2, v2) :: bs => k1 == k2 && pyEq v1 v2 && pyEqPairs as bs
    | _, _ => false

/-- Lookup of a string key in the field list of an object (first match;
objects are built with overwrite-on-insert so keys are unique). -/
def lookupStr (fs : List (String × Json)) (k : String) : Option Json :=
  (fs.find? (fun p => p.1 == k)).map (fun p => p.2)

/-- Python `d.get(k)`: `None` when the key is absent, `AttributeError`
when the receiver is not a mapping. -/
def jGet (j : Json) (k : String) : Except PyErr Json :=
  match j with
  | .obj fs => .ok ((lookupStr fs k).getD .null)
  | _ => .error .attributeError

/-- Python `d.get(k, default)`: the default only when the key is absent. -/
def jGetD (j : Json) (k : String) (dflt : Json) : Except PyErr Json :=
  match j with
  | .obj fs => .ok ((lookupStr fs k).getD dflt)
  | _ => .error .attributeError

/-- Python `d[k]` on a mapping: `KeyError` when absent, `TypeError` when the
receiver is not a mapping. -/
def jSubscr (j : Json) (k : String) : Except PyErr Json :=
  match j with
  | .obj fs =>
    match lookupStr fs k with
    | some v => .ok v
    | none => .error .keyError
  | _ => .error .typeError

/-- Insert into a string-keyed mapping with Python dict semantics: an existing
key keeps its position and gets the new value, a new key is appended. -/
def insertStr : List (String × Json) → String → Json → List (String × Json)
  | [], k, v => [(k, v)]
  | (k0, v0) :: rest, k, v =>
    if k0 == k then (k0, v) :: rest else (k0, v0) :: insertStr rest k v

/-- Insert into a Json-keyed mapping (Python dict with dynamic keys),
overwriting the value of a `pyEq`-equal key in place. -/
def pyInsert : List (Json × Json) → Json → Json → List (Json × Json)
  | [], k, v => [(k, v)]
  | (k0, v0) :: rest, k, v =>
    if pyEq k0 k then (k0, v) :: rest else (k0, v0) :: pyInsert rest k v

/-- Lookup in a Json-keyed mapping. -/
def pyLookup (m : List (Json × Json)) (k : Json) : Option Json :=
  (m.find? (fun p => pyEq p.1 k)).map (fun p => p.2)

/-- Python `str.lower()` (character-wise; the embedded code only lowercases
ASCII attribute values); `AttributeError` on a non-string receiver. -/
def pyLower : Json → Except PyErr String
  | .str s => .ok (String.mk (s.toList.map Char.toLower))
  | _ => .error .attributeError

/-- Python `str(x)` as used by the f-string `"Token ..."`.  It is exact for
strings, booleans and `None` (the client only ever formats the cached token,
which is a string in every scenario a claim exercises); container and
numeric renderings are placeholders. -/
def pyToStr : Json → String
  | .str s => s
  | .null => "None"
  | .bool true => "True"
  | .bool false => "False"
  | .num q => toString q.num ++ (if q.den == 1 then "" else "/" ++ toString q.den)
  | .arr _ => "<list>"
  | .obj _ => "<dict>"

/-- Whitespace stripped by Python `str.strip()` and `float()`. -/
def isPyWs (c : Char) : Bool :=
  c = ' ' || c = '\t' || c = '\n' || c = '\r' || c = '\x0b' || c = '\x0c'

/-- Python `s.strip()`. -/
def pyStrip (s : String) : String :=
  String.mk (((s.toList.dropWhile isPyWs).reverse.dropWhile isPyWs).reverse)

/-! ### Decimal parsing (shared by the JSON decoder and Python `float`) -/

def isDigitCh (c : Char) : Bool := '0' ≤ c && c ≤ '9'

def readDigits : List Char → List Char × List Char
  | [] => ([], [])
  | c :: cs =>
    if isDigitCh c then
      let (d, r) := readDigits cs
      (c :: d, r)
    else ([], c :: cs)

def digitsNat (ds : List Char) : Nat :=
  ds.foldl (fun a c => a * 10 + (c.toNat - 48)) 0

/-- Assembles the rational value `mant / 10^frac * 10^exp`, negated when
`neg` is set.  Only `Nat` arithmetic and one final `Rat.divInt` are used so
that closed values reduce definitionally. -/
def mkDecimal (neg : Bool) (mant frac : Nat) (ex : Int) : ℚ :=
  let n : Nat := if (frac : Int) ≤ ex then mant * 10 ^ (ex - (frac : Int)).toNat else mant
  let d : Nat := if (frac : Int) ≤ ex then 1 else 10 ^ ((frac : Int) - ex).toNat
  Rat.divInt (if neg then -(n : Int) else (n : Int)) (d : Int)

/-- Signed decimal exponent digits after an `e`. -/
def parseSignedDigits (cs : List Char) : Option (Int × List Char) :=
  let (sgn, cs1) : Bool × List Char :=
    match cs with
    | '+' :: r => (false, r)
    | '-' :: r => (true, r)
    | _ => (false, cs)
  let (ds, cs2) := readDigits cs1
  if ds.isEmpty then none
  else some ((if sgn then -(digitsNat ds : Int) else (digitsNat ds : Int)), cs2)

/-- Optional exponent part; exponent 0 when absent. -/
def parseExpPart : List Char → Option (Int × List Char)
  | 'e' :: r => parseSignedDigits r
  | 'E' :: r => parseSignedDigits r
  | cs => some ((0 : Int), cs)

/-! ### JSON decoding (`json.loads`)

The grammar follows RFC 8259 as implemented by Python's `json` module:
values, nested arrays/objects, strings with the standard escapes, and
numbers with optional fraction and exponent.  Unexercised corners (the
leading-zero restriction, `NaN`/`Infinity` extensions, `\u` surrogate
pairing) are simplified; no claim depends on them. -/

def isJsonWs (c : Char) : Bool := c = ' ' || c = '\t' || c = '\n' || c = '\r'

def skipWs : List Char → List Char
  | [] => []
  | c :: cs => if isJsonWs c then skipWs cs else c :: cs

def hexVal (c : Char) : Option Nat :=
  if '0' ≤ c && c ≤ '9' then some (c.toNat - 48)
  else if 'a' ≤ c && c ≤ 'f' then some (c.toNat - 87)
  else if 'A' ≤ c && c ≤ 'F' then some (c.toNat - 55)
  else none

/-- Body of a JSON string after the opening quote; returns the decoded
characters and the rest after the closing quote. -/
def readStr : List Char → Option (List Char × List Char)
  | [] => none
  | '"' :: r => some ([], r)
  | '\\' :: '"' :: r => (readStr r).map (fun p => ('"' :: p.1, p.2))
  | '\\' :: '\\' :: r => (readStr r).map (fun p => ('\\' :: p.1, p.2))
  | '\\' :: '/' :: r => (readStr r).map (fun p => ('/' :: p.1, p.2))
  | '\\' :: 'n' :: r => (readStr r).map (fun p => ('\n' :: p.1, p.2))
  | '\\' :: 't' :: r => (readStr r).map (fun p => ('\t' :: p.1, p.2))
  | '\\' :: 'r' :: r => (readStr r).map (fun p => ('\r' :: p.1, p.2))
  | '\\' :: 'b' :: r => (readStr r).map (fun p => ('\x08' :: p.1, p.2))
  | '\\' :: 'f' :: r => (readStr r).map (fun p => ('\x0c' :: p.1, p.2))
  | '\\' :: 'u' :: h1 :: h2 :: h3 :: h4 :: r =>
    match hexVal h1, hexVal h2, hexVal h3, hexVal h4 with
    | some a, some b, some c, some d =>
      (readStr r).map (fun p => (Char.ofNat (((a * 16 + b) * 16 + c) * 16 + d) :: p.1, p.2))
    | _, _, _, _ => none
  | '\\' :: _ => none
  | c :: r => (readStr r).map (fun p => (c :: p.1, p.2))

/-- JSON number mantissa: integer digits with an optional fraction, as the
pair (combined digits, fraction length). -/
def parseMant (cs : List Char) : Option ((Nat × Nat) × List Char) :=
  let (ip, cs2) := readDigits cs
  if ip.isEmpty then none
  else
    match cs2 with
    | '.' :: r =>
      let (fp, r2) := readDigits r
      if fp.isEmpty then none
      else some ((digitsNat (ip ++ fp), fp.length), r2)
    | _ => some ((digitsNat ip, 0), cs2)

/-- JSON number with optional leading minus and exponent. -/
def parseNum (cs : List Char) : Option (ℚ × List Char) :=
  let (neg, cs1) : Bool × List Char :=
    match cs with
    | '-' :: r => (true, r)
    | _ => (false, cs)
  match parseMant cs1 with
  | none => none
  | some (m, cs2) =>
    match parseExpPart cs2 with
    | none => none
    | some (e, cs3) => some (mkDecimal neg m.1 m.2 e, cs3)

mutual

/-- Fuel-indexed JSON value parser. -/
def parseVal : Nat → List Char → Option (Json × List Char)
  | 0, _ => none
  | Nat.succ fuel, cs =>
    match skipWs cs with
    | 'n' :: 'u' :: 'l' :: 'l' :: r => some (.null, r)
    | 't' :: 'r' :: 'u' :: 'e' :: r => some (.bool true, r)
    | 'f' :: 'a' :: 'l' :: 's' :: 'e' :: r => some (.bool false, r)
    | '"' :: r => (readStr r).map (fun p => (.str (String.mk p.1), p.2))
    | '[' :: r =>
      (match skipWs r with
       | ']' :: r2 => some (.arr [], r2)
       | _ => (parseItems fuel r).map (fun p => (.arr p.1, p.2)))
    | '\x7b' :: r =>
      (match skipWs r with
       | '\x7d' :: r2 => some (.obj [], r2)
       | _ =>
         (parseMembers fuel r).map
           (fun p => (.obj (p.1.foldl (fun m kv => insertStr m kv.1 kv.2) []), p.2)))
    | cs2 => (parseNum cs2).map (fun p => (.num p.1, p.2))

/-- Comma-separated array items up to the closing bracket. -/
def parseItems : Nat → List Char → Option (List Json × List Char)
  | 0, _ => none
  | Nat.succ fuel, cs =>
    match parseVal fuel cs with
    | none => none
    | some (v, r1) =>
      match skipWs r1 with
      | ',' :: r2 =>
        (match parseItems fuel r2 with
         | none => none
         | some (xs, r3) => some (v :: xs, r3))
      | ']' :: r2 => some ([v], r2)
      | _ => none

/-- Comma-separated object members up to the closing brace. -/
def parseMembers : Nat → List Char → Option (List (String × Json) × List Char)
  | 0, _ => none
  | Nat.succ fuel, cs =>
    match skipWs cs with
    | '"' :: r =>
      (match readStr r with
       | none => none
       | some (k, r1) =>
         match skipWs r1 with
         | ':' :: r2 =>
           (match parseVal fuel r2 with
            | none => none
            | some (v, r3) =>
              match skipWs r3 with
              | ',' :: r4 =>
                (match parseMembers fuel r4 with
                 | none => none
                 | some (fs, r5) => some ((String.mk k, v) :: fs, r5))
              | '\x7d' :: r4 => some ([(String.mk k, v)], r4)
              | _ => none)
         | _ => none)
    | _ => none

end

/-- Python `json.loads` on a string: `none` models `json.JSONDecodeError`
(raised on malformed input or trailing data). -/
def json_loads (s : String) : Option Json :=
  match parseVal (2 * s.length + 2) s.toList with
  | some (v, rest) => if (skipWs rest).isEmpty then some v else none
  | none => none

/-! ### Python `float(x)` -/

/-- Python float-string mantissa: `digits`, `digits.`, `digits.digits` or
`.digits`, as the pair (combined digits, fraction length). -/
def pyMant (cs : List Char) : Option ((Nat × Nat) × List Char) :=
  let (ip, cs1) := readDigits cs
  match cs1 with
  | '.' :: r =>
    let (fp, r2) := readDigits r
    if ip.isEmpty && fp.isEmpty then none
    else some ((digitsNat (ip ++ fp), fp.length), r2)
  | _ => if ip.isEmpty then none else some ((digitsNat ip, 0), cs1)

/-- Numeric strings accepted by Python `float`: optional surrounding
whitespace, optional sign, mantissa, optional exponent.  (`inf`, `nan` and
digit-group underscores are not modelled; no claim exercises them.) -/
def pyFloatStr (s : String) : Option ℚ :=
  let cs := (pyStrip s).toList
  let (neg, cs1) : Bool × List Char :=
    match cs with
    | '-' :: r => (true, r)
    | '+' :: r => (false, r)
    | _ => (false, cs)
  match pyMant cs1 with
  | none => none
  | some (m, cs2) =>
    match parseExpPart cs2 with
    | none => none
    | some (e, cs3) =>
      if cs3.isEmpty then some (mkDecimal neg m.1 m.2 e) else none

/-- Python `float(x)`: numbers and booleans convert, numeric strings parse
(`ValueError` otherwise), and non-string non-numeric values raise
`TypeError`. -/
def pyFloat : Json → Except PyErr ℚ
  | .num q => .ok q
  | .bool b => .ok (if b then 1 else 0)
  | .str s =>
    match pyFloatStr s with
    | some q => .ok q
    | none => .error .valueError
  | _ => .error .typeError

/-! ### Session client (`DomainMgmtApiClient._request`)

`_request` builds one `httpx` request from the base URL, path, optional
token, params and JSON body, hands it to the transport, and normalizes the
response.  The `token` and `json_data` parameters are dynamic values with
`Json.null` standing for Python `None` (their default). -/

structure HttpRequest where
  method : String
  url : String
  headers : List (String × String)
  params : Json
  body : Json

structure HttpResponse where
  status : Nat
  text : String

/-- The HTTP transport: an oracle mapping each request to a response.
Transport-level failures (connection errors, timeouts) are outside the
claims and are not modelled. -/
def Transport := HttpRequest → HttpResponse

/-- Mirrors the header construction in `_request`: `Content-Type` is set
when `json_data is not None`; `Authorization` when `token` is truthy. -/
def buildHeaders (tokenJ jsonData : Json) : List (String × String) :=
  (if pyIsNull jsonData then [] else [("Content-Type", "application/json")]) ++
    (if pyTruthy tokenJ then [("Authorization", "Token " ++ pyToStr tokenJ)] else [])

def hasHeader (hs : List (String × String)) (nm : String) : Bool :=
  hs.any (fun p => p.1 == nm)

def is2xx (s : Nat) : Bool := 200 ≤ s && s < 300

/-- Truthiness of the optional `expected_key` argument (`None` and the empty
string are falsy). -/
def optStrTruthy : Option String → Bool
  | none => false
  | some s => !(s == "")

/-- Response normalization in `_request`: `raise_for_status`, then the
no-content / empty-body branch, then JSON decoding with `ValueError`
swallowed, then optional envelope unwrapping via `expected_key`. -/
def processResponse (resp : HttpResponse) (ek : Option String) : Except PyErr Json :=
  if !is2xx resp.status then .error (.httpStatusError resp.status)
  else if resp.status == 204 || pyStrip resp.text == "" then
    .ok (if optStrTruthy ek then .obj [] else .null)
  else
    match json_loads resp.text with
    | none => .ok (if optStrTruthy ek then .obj [] else .null)
    | some data =>
      if optStrTruthy ek then
        match ek with
        | some k => jGetD data k (.obj [])
        | none => .ok data
      else .ok data

/-- The embedded `_request`: returns the single request handed to the
transport together with the normalized outcome.  The per-call timeout only
affects transport behaviour and is not modelled. -/
def request_ (transport : Transport) (base method path : String)
    (tokenJ params jsonData : Json) (ek : Option String) :
    HttpRequest × Except PyErr Json :=
  let req : HttpRequest :=
    { method := method, url := base ++ path,
      headers := buildHeaders tokenJ jsonData, params := params, body := jsonData }
  (req, processResponse (transport req) ek)

/-! ### Auth manager (`authenticate` / `generate_customer_token`) -/

/-- The mutable fields of `DomainMgmtApiClient`.  `session` stands for the
`httpx.Client` handle, which the auth methods never touch.  The token
slots hold `Json.null` for Python `None`. -/
structure ClientState where
  base_url : String
  email : String
  password : String
  session : Nat
  auth_token : Json
  customer_auth_token : Json

/-- Embeds `DomainMgmtApiClient.authenticate`: posts credentials to the
sign-in endpoint, requires a truthy `token` field in the response
(`RuntimeError` otherwise), and caches it in `_auth_token`.  Returns the
issued requests alongside the updated state. -/
def authenticate (transport : Transport) (st : ClientState) :
    List HttpRequest × Except PyErr ClientState :=
  let payload := Json.obj [("email", .str st.email), ("password", .str st.password)]
  let pr := request_ transport st.base_url "post" "/api/user/signin" .null .null payload none
  ([pr.1],
    match pr.2 with
    | .error e => .error e
    | .ok data =>
      match jGet data "token" with
      | .error e => .error e
      | .ok tok =>
        if pyTruthy tok then .ok { st with auth_token := tok } else .error .runtimeError)

/-- Embeds `DomainMgmtApiClient.generate_customer_token`: posts the customer
email to the client-token endpoint using whatever `_auth_token` currently
holds (no precondition check), requires a truthy `token` in the response,
and caches it in `_customer_auth_token`. -/
def generate_customer_token (transport : Transport) (st : ClientState)
    (customer_email : String) : List HttpRequest × Except PyErr ClientState :=
  let pr := request_ transport st.base_url "post"
    "/api/onboarding/partner/generate-client-token" st.auth_token .null
    (.obj [("email", .str customer_email)]) none
  ([pr.1],
    match pr.2 with
    | .error e => .error e
    | .ok data =>
      match jGet data "token" with
      | .error e => .error e
      | .ok tok =>
        if pyTruthy tok then .ok { st with customer_auth_token := tok }
        else .error .runtimeError)

/-! ### Reconciliation pass A — the KPI map
(`test_model_definition.main`, the loop over raw KPI records) -/

structure KpiDefinition where
  description : Json
  source_table : Json

structure BusinessRules where
  goal : Json
  is_higher_better : Json
  unit_of_measure : Json

structure KpiEntry where
  kpi_id : Json
  kpi_name : Json
  display_name : Json
  category : Json
  definition : KpiDefinition
  business_rules : BusinessRules

/-- Folds the `attributes` list into a direct lookup mapping
`attributeName -> defaultValue` (dict comprehension, later entries
overwrite). -/
def foldAttrs : List Json → List (Json × Json) → Except PyErr (List (Json × Json))
  | [], acc => .ok acc
  | it :: rest, acc =>
    match jGet it "attributeName" with
    | .error e => .error e
    | .ok n =>
      match jGet it "defaultValue" with
      | .error e => .error e
      | .ok v => foldAttrs rest (pyInsert acc n v)

/-- Stage 1 of the per-KPI loop: `kpi.get("attributes", [])` folded into the
lookup dict.  Iterating a non-list value aborts the run (Python raises in
the comprehension). -/
def attrsStage (kpi : Json) : Except PyErr (List (Json × Json)) :=
  match jGetD kpi "attributes" (.arr []) with
  | .error e => .error e
  | .ok (.arr items) => foldAttrs items []
  | .ok _ => .error .typeError

/-- Stage 2: `json.loads(kpi.get("data", "\x7b\x7d"))` with
`json.JSONDecodeError` caught and replaced by an empty object.  A non-string
`data` value raises `TypeError` inside `json.loads`, which the
`except json.JSONDecodeError` clause does not catch. -/
def loadsE (s : String) : Except PyErr Json :=
  match json_loads s with
  | some v => .ok v
  | none => .error .jsonDecodeError

def catchDecode (x : Except PyErr Json) : Except PyErr Json :=
  match x with
  | .error .jsonDecodeError => .ok (.obj [])
  | r => r

def dataStage (kpi : Json) : Except PyErr Json :=
  match jGetD kpi "data" (.str "\x7b\x7d") with
  | .error e => .error e
  | .ok (.str s) => catchDecode (loadsE s)
  | .ok _ => .error .typeError

/-- The two `definition` getter chains:
`data_details.get("formula", ...).get("description", "N/A")` and
`data_details.get("formula", ...).get("data_source", ...).get("table")`. -/
def defStage (dd : Json) : Except PyErr (Json × Json) :=
  match jGetD dd "formula" (.obj []) with
  | .error e => .error e
  | .ok f1 =>
    match jGetD f1 "description" (.str "N/A") with
    | .error e => .error e
    | .ok desc =>
      match jGetD dd "formula" (.obj []) with
      | .error e => .error e
      | .ok f2 =>
        match jGetD f2 "data_source" (.obj []) with
        | .error e => .error e
        | .ok ds =>
          match jGet ds "table" with
          | .error e => .error e
          | .ok tbl => .ok (desc, tbl)

/-- `float(attrs.get("Goal")) if attrs.get("Goal") is not None else None`. -/
def goalOf (attrs : List (Json × Json)) : Except PyErr Json :=
  match (pyLookup attrs (.str "Goal")).getD .null with
  | .null => .ok .null
  | v =>
    match pyFloat v with
    | .error e => .error e
    | .ok q => .ok (.num q)

/-- `attrs.get("GI", "").lower() == "more"`. -/
def ihbOf (attrs : List (Json × Json)) : Except PyErr Json :=
  match pyLower ((pyLookup attrs (.str "GI")).getD (.str "")) with
  | .error e => .error e
  | .ok s => .ok (.bool (s == "more"))

/-- `attrs.get("UOM Display Name")`. -/
def uomOf (attrs : List (Json × Json)) : Json :=
  (pyLookup attrs (.str "UOM Display Name")).getD .null

/-- The profile assembled for one raw KPI record, in the evaluation order of
the Python dict literal. -/
def buildEntry (kpi : Json) : Except PyErr KpiEntry :=
  match attrsStage kpi with
  | .error e => .error e
  | .ok attrs =>
    match dataStage kpi with
    | .error e => .error e
    | .ok dd =>
      match jGet kpi "id" with
      | .error e => .error e
      | .ok kidv =>
        match jGet kpi "name" with
        | .error e => .error e
        | .ok namev =>
          match jGet kpi "displayName" with
          | .error e => .error e
          | .ok dispv =>
            match jGet kpi "category" with
            | .error e => .error e
            | .ok catv =>
              match defStage dd with
              | .error e => .error e
              | .ok dt =>
                match goalOf attrs with
                | .error e => .error e
                | .ok goal =>
                  match ihbOf attrs with
                  | .error e => .error e
                  | .ok ihb =>
                    .ok { kpi_id := kidv, kpi_name := namev, display_name := dispv,
                          category := catv,
                          definition := { description := dt.1, source_table := dt.2 },
                          business_rules := { goal := goal, is_higher_better := ihb,
                                              unit_of_measure := uomOf attrs } }

/-- Insert into the Json-keyed `kpi_map` with dict overwrite semantics. -/
def insertEntry : List (Json × KpiEntry) → Json → KpiEntry → List (Json × KpiEntry)
  | [], k, v => [(k, v)]
  | (k0, v0) :: rest, k, v =>
    if pyEq k0 k then (k0, v) :: rest else (k0, v0) :: insertEntry rest k v

/-- Pass A: `kpi_map[kpi["id"]] = assembled profile` over the raw KPI list
(the entry dict is evaluated before the `kpi["id"]` subscript, as in Python
assignment order). -/
def passAGo : List Json → List (Json × KpiEntry) → Except PyErr (List (Json × KpiEntry))
  | [], m => .ok m
  | kpi :: rest, m =>
    match buildEntry kpi with
    | .error e => .error e
    | .ok e =>
      match jSubscr kpi "id" with
      | .error err => .error err
      | .ok k => passAGo rest (insertEntry m k e)

def passA (kpis : List Json) : Except PyErr (List (Json × KpiEntry)) :=
  passAGo kpis []

/-! ### Reconciliation pass B — contexts, dictionaries, function join -/

/-- `[r for r in records if r.get("typeName") == "Context"]`. -/
def filterContexts : List Json → Except PyErr (List Json)
  | [] => .ok []
  | r :: rest =>
    match jGet r "typeName" with
    | .error e => .error e
    | .ok t =>
      match filterContexts rest with
      | .error e => .error e
      | .ok tail => .ok (if pyEq t (.str "Context") then r :: tail else tail)

/-- `function_codes.append(ctx.get("functionCode"))` over the contexts. -/
def functionCodes : List Json → Except PyErr (List Json)
  | [] => .ok []
  | c :: rest =>
    match jGet c "functionCode" with
    | .error e => .error e
    | .ok f =>
      match functionCodes rest with
      | .error e => .error e
      | .ok tail => .ok (f :: tail)

/-- Python hashability of a value (lists and dicts are unhashable and make
`set(...)` raise `TypeError`). -/
def jHashable : Json → Bool
  | .arr _ => false
  | .obj _ => false
  | _ => true

/-- Python `set(xs)` as a duplicate-free list, with `seen` accumulating the
elements already added.  Every element is hashed (lists and dicts raise
`TypeError`), and an element is kept exactly when no `pyEq`-equal element
came before it. -/
def pySetAux : List Json → List Json → Except PyErr (List Json)
  | [], _ => .ok []
  | x :: rest, seen =>
    if jHashable x then
      match pySetAux rest (x :: seen) with
      | .error e => .error e
      | .ok s => .ok (if seen.any (fun y => pyEq y x) then s else x :: s)
    else .error .typeError

/-- Python `set(xs)` as a duplicate-free list.  Membership uses `pyEq`; an
unhashable element raises `TypeError`.  CPython iterates a set in hash
order; this model keeps first-occurrence order, and the claims only concern
which elements occur, not their order. -/
def pySet (xs : List Json) : Except PyErr (List Json) :=
  pySetAux xs []

/-- The dictionary-fetch stage of `test_model_definition.main`: one
`get_dictionary(f_code)` call per element of `set(function_codes)`.
Returns the list of `functionCode` arguments of the issued calls. -/
def dictionaryCalls (contexts : List Json) : Except PyErr (List Json) :=
  match functionCodes contexts with
  | .error e => .error e
  | .ok codes => pySet codes

/-- Occurrences of a value in a list under Python equality. -/
def pyCount (c : Json) (l : List Json) : Nat :=
  l.countP (fun y => pyEq c y)

/-! ### Function join (`test_query_model.main`) -/

/-- `{kpi["functionName"] for kpi in kpis}` before deduplication. -/
def kpiFunctionNamesRaw : List Json → Except PyErr (List Json)
  | [] => .ok []
  | k :: rest =>
    match jSubscr k "functionName" with
    | .error e => .error e
    | .ok f =>
      match kpiFunctionNamesRaw rest with
      | .error e => .error e
      | .ok tail => .ok (f :: tail)

/-- The set of distinct KPI `functionName` values. -/
def kpiFunctionNames (kpis : List Json) : Except PyErr (List Json) :=
  match kpiFunctionNamesRaw kpis with
  | .error e => .error e
  | .ok raw => pySet raw

/-- Lookup in the Json-keyed grouping `functions_by_name`. -/
def lookupGroup (m : List (Json × List Json)) (k : Json) : Option (List Json) :=
  (m.find? (fun p => pyEq p.1 k)).map (fun p => p.2)

/-- `functions_by_name[blob["name"]].extend(items)` on the defaultdict: a
missing key starts from the empty list; an existing `pyEq`-equal key keeps
its position and is extended. -/
def extendGroup : List (Json × List Json) → Json → List Json → List (Json × List Json)
  | [], k, items => [(k, items)]
  | (k0, l0) :: rest, k, items =>
    if pyEq k0 k then (k0, l0 ++ items) :: rest else (k0, l0) :: extendGroup rest k items

/-- Builds `functions_by_name` from the raw Functions feed: for each blob,
group key `blob["name"]` (unhashable keys raise `TypeError`), extended with
`blob.get("industry_function", [])` (a non-list there makes `extend`
raise `TypeError`). -/
def functionsByName : List Json → List (Json × List Json) → Except PyErr (List (Json × List Json))
  | [], m => .ok m
  | blob :: rest, m =>
    match jSubscr blob "name" with
    | .error e => .error e
    | .ok n =>
      if jHashable n then
        match jGetD blob "industry_function" (.arr []) with
        | .error e => .error e
        | .ok (.arr items) => functionsByName rest (extendGroup m n items)
        | .ok _ => .error .typeError
      else .error .typeError

/-- The fixed field list projected into `function_info`. -/
def fieldList : List String :=
  ["id", "industry_function_map_id", "function_name", "industry_name",
   "subType", "name", "description", "useCaseId"]

/-- `(field: item[field] for field in fields)` as an object (a missing field
raises `KeyError`). -/
def projectFields : List String → Json → Except PyErr (List (String × Json))
  | [], _ => .ok []
  | f :: rest, item =>
    match jSubscr item f with
    | .error e => .error e
    | .ok v =>
      match projectFields rest item with
      | .error e => .error e
      | .ok tail => .ok ((f, v) :: tail)

def projectItem (item : Json) : Except PyErr Json :=
  match projectFields fieldList item with
  | .error e => .error e
  | .ok ps => .ok (.obj ps)

/-- Projection of all the items grouped under one function name. -/
def mapProj : List Json → Except PyErr (List Json)
  | [] => .ok []
  | it :: rest =>
    match projectItem it with
    | .error e => .error e
    | .ok p =>
      match mapProj rest with
      | .error e => .error e
      | .ok tail => .ok (p :: tail)

/-- Entries contributed by one KPI function name:
`functions_by_name.get(fn, [])` projected (a plain `.get`, which does not
insert into the defaultdict). -/
def infoForName (m : List (Json × List Json)) (fn : Json) : Except PyErr (List Json) :=
  mapProj ((lookupGroup m fn).getD [])

def flatInfo (m : List (Json × List Json)) : List Json → Except PyErr (List Json)
  | [] => .ok []
  | fn :: rest =>
    match infoForName m fn with
    | .error e => .error e
    | .ok xs =>
      match flatInfo m rest with
      | .error e => .error e
      | .ok tail => .ok (xs ++ tail)

/-- The `function_info` comprehension: the distinct KPI `functionName`
values joined against the grouped Functions feed. -/
def functionInfo (kpis functions : List Json) : Except PyErr (List Json) :=
  match kpiFunctionNames kpis with
  | .error e => .error e
  | .ok names =>
    match functionsByName functions [] with
    | .error e => .error e
    | .ok m => flatInfo m names

/-! ### Concrete fixtures used by the theorems -/

/-- The embedded-JSON `data` blob of the C3 scenario KPI. -/
def dataStrC3 : String :=
  "\x7b\"formula\":\x7b\"description\":\"count\",\"data_source\":\x7b\"table\":\"stories\"\x7d\x7d\x7d"

/-- The raw KPI record of the C3 scenario. -/
def recC3 : Json := .obj
  [("id", .num 7), ("name", .str "sc"), ("displayName", .str "Stories Closed"),
   ("category", .str "Delivery"), ("data", .str dataStrC3),
   ("attributes", .arr
     [.obj [("attributeName", .str "Goal"), ("defaultValue", .str "42")],
      .obj [("attributeName", .str "GI"), ("defaultValue", .str "More")]])]

/-- The profile pass A must emit for the C3 scenario (42.0 is the rational
42 in this model). -/
def entryC3 : KpiEntry :=
  { kpi_id := .num 7, kpi_name := .str "sc", display_name := .str "Stories Closed",
    category := .str "Delivery",
    definition := { description := .str "count", source_table := .str "stories" },
    business_rules := { goal := .num 42, is_higher_better := .bool true,
                        unit_of_measure := .null } }

/-- C3: pass A on the single scenario KPI record produces exactly the
expected `kpi_map` with the single key 7 mapped to the expected profile:
definition parsed out of the embedded JSON, goal coerced to the number 42,
`is_higher_better` true via the case-insensitive "GI" comparison, and a
null unit of measure. -/
theorem passA_scenario_record : passA [recC3] = .ok [(.num 7, entryC3)] := by
  rfl

/-- A transport whose every response is HTTP 200 with a token body, as the
remote returns on a successful token mint. -/
def transportTokenOk : Transport := fun _ => { status := 200, text := "\x7b\"token\":\"ct\"\x7d" }

/-- A freshly constructed client: both token slots hold Python `None`. -/
def clientStart : ClientState :=
  { base_url := "https://onboarding.example", email := "admin@example.com",
    password := "pw", session := 0, auth_token := .null, customer_auth_token := .null }

/-- C1 counterexample: calling `generate_customer_token` on a client that
never authenticated does issue an HTTP request (one request reaches the
transport), and with a token-bearing 200 response the call even succeeds
and caches a customer token — it neither fails with a precondition error
nor refrains from the HTTP call. -/
theorem mint_before_auth_counterexample :
    (generate_customer_token transportTokenOk clientStart "cust@example.com").1.length = 1 ∧
    (generate_customer_token transportTokenOk clientStart "cust@example.com").2 =
      .ok { clientStart with customer_auth_token := .str "ct" } :=
  ⟨rfl, rfl⟩

/-- C1 (amended): invoked while the partner track is unauthenticated,
`generate_customer_token` performs no precondition check: it hands the
transport exactly one POST to the client-token endpoint whose headers carry
no `Authorization` entry (the `None` token is falsy), and the outcome is
decided only by the response. -/
theorem mint_unauthenticated_issues_unauthorized_request
    (transport : Transport) (st : ClientState) (ce : String)
    (h : st.auth_token = .null) :
    (generate_customer_token transport st ce).1 =
      [{ method := "post",
         url := st.base_url ++ "/api/onboarding/partner/generate-client-token",
         headers := [("Content-Type", "application/json")],
         params := .null, body := .obj [("email", .str ce)] }] := by
  simp [generate_customer_token, request_, buildHeaders, h, pyTruthy, pyIsNull]

/-- Witness for the C1 theorem at a concrete unauthenticated client. -/
theorem mint_unauthenticated_issues_unauthorized_request_witness :
    (generate_customer_token transportTokenOk clientStart "cust@example.com").1 =
      [{ method := "post",
         url := "https://onboarding.example/api/onboarding/partner/generate-client-token",
         headers := [("Content-Type", "application/json")],
         params := .null, body := .obj [("email", .str "cust@example.com")] }] :=
  mint_unauthenticated_issues_unauthorized_request transportTokenOk clientStart
    "cust@example.com" rfl

/-- A transport answering 204 No Content with an empty body. -/
def transport204 : Transport := fun _ => { status := 204, text := "" }

/-- C2 counterexample: on a 204 response, a call that passes the
`expected_key` argument `""` gets `None` back, not the empty mapping —
the code tests the key for truthiness, not for presence. -/
theorem empty_body_empty_key_counterexample :
    (request_ transport204 "https://onboarding.example" "delete" "/api/x"
        .null .null .null (some "")).2 = .ok Json.null ∧
      Json.null ≠ Json.obj [] :=
  ⟨rfl, fun h => Json.noConfusion h⟩

/-- Normalization of any tolerated-empty response, shared shape of the C2
statement. -/
theorem processResponse_tolerant (resp : HttpResponse) (ek : Option String)
    (h1 : 200 ≤ resp.status) (h2 : resp.status < 300)
    (h3 : resp.status = 204 ∨ pyStrip resp.text = "" ∨ json_loads resp.text = none) :
    processResponse resp ek = .ok (if optStrTruthy ek then Json.obj [] else Json.null) := by
  unfold processResponse
  have hx : is2xx resp.status = true := by
    simp only [is2xx, Bool.and_eq_true, decide_eq_true_eq]
    exact ⟨h1, h2⟩
  rcases h3 with h | h | h
  · simp [h, is2xx]
  · simp [hx, h]
  · by_cases hb : (resp.status == 204 || (pyStrip resp.text == "")) = true
    · simp [hx, hb]
    · simp [hx, hb, h]

/-- C2 (amended): for every method, path, token, params and body, a 2xx
response whose body is empty, all whitespace, or not valid JSON (a 204
included) makes `_request` return the empty mapping when a non-empty
`expected_key` is given and `None` when `expected_key` is absent or empty;
the result is always a normal return, never a decode error. -/
theorem request_empty_body_tolerance
    (transport : Transport) (base method path : String)
    (tokenJ params jsonData : Json) (ek : Option String)
    (h1 : 200 ≤ (transport (request_ transport base method path tokenJ params jsonData ek).1).status)
    (h2 : (transport (request_ transport base method path tokenJ params jsonData ek).1).status < 300)
    (h3 : (transport (request_ transport base method path tokenJ params jsonData ek).1).status = 204 ∨
          pyStrip (transport (request_ transport base method path tokenJ params jsonData ek).1).text = "" ∨
          json_loads (transport (request_ transport base method path tokenJ params jsonData ek).1).text = none) :
    (request_ transport base method path tokenJ params jsonData ek).2 =
      .ok (if optStrTruthy ek then Json.obj [] else Json.null) :=
  processResponse_tolerant (transport (request_ transport base method path tokenJ params jsonData ek).1)
    ek h1 h2 h3

/-- Witness for the C2 theorem: a 200 response with a non-JSON body and an
envelope key requested. -/
theorem request_empty_body_tolerance_witness :
    (request_ (fun _ => { status := 200, text := "not json" })
        "https://onboarding.example" "get" "/api/industry" .null .null .null (some "data")).2 =
      .ok (Json.obj []) :=
  request_empty_body_tolerance (fun _ => { status := 200, text := "not json" })
    "https://onboarding.example" "get" "/api/industry" .null .null .null (some "data")
    (by decide) (by decide) (Or.inr (Or.inr rfl))

/-- C9 counterexample: a call that supplies the empty-string token (an
argument is given, and it is not `None`) carries no `Authorization` header,
because the code tests the token for truthiness rather than presence. -/
theorem empty_token_no_authorization_counterexample :
    hasHeader (buildHeaders (.str "") (.obj [("email", .str "c@example.com")])) "Authorization"
        = false ∧
      Json.str "" ≠ Json.null :=
  ⟨rfl, fun h => Json.noConfusion h⟩

/-- C9 (amended): for every `_request` call, `Content-Type: application/json`
is attached exactly when a JSON body is supplied (not `None`), and the
`Authorization: Token ...` header exactly when the supplied token is truthy —
in particular an unauthenticated call (token `None`) carries no
`Authorization` header, and neither does a call with an empty-string token. -/
theorem request_header_discipline (tokenJ jsonData : Json) :
    (hasHeader (buildHeaders tokenJ jsonData) "Content-Type" = !pyIsNull jsonData) ∧
    (hasHeader (buildHeaders tokenJ jsonData) "Authorization" = pyTruthy tokenJ) ∧
    (pyIsNull tokenJ = true → hasHeader (buildHeaders tokenJ jsonData) "Authorization" = false) := by
  refine ⟨?_, ?_, ?_⟩
  · cases hj : pyIsNull jsonData <;> cases ht : pyTruthy tokenJ <;>
      simp [buildHeaders, hasHeader, hj, ht]
  · cases hj : pyIsNull jsonData <;> cases ht : pyTruthy tokenJ <;>
      simp [buildHeaders, hasHeader, hj, ht]
  · intro hn
    cases tokenJ with
    | null => cases hj : pyIsNull jsonData <;> simp [buildHeaders, hasHeader, hj, pyTruthy]
    | bool b => exact absurd hn (by simp [pyIsNull])
    | num q => exact absurd hn (by simp [pyIsNull])
    | str s => exact absurd hn (by simp [pyIsNull])
    | arr xs => exact absurd hn (by simp [pyIsNull])
    | obj fs => exact absurd hn (by simp [pyIsNull])

/-- Witness for the C9 theorem at a concrete authenticated JSON POST. -/
theorem request_header_discipline_witness :
    (hasHeader (buildHeaders (.str "tok") (.obj [("email", .str "c@example.com")])) "Content-Type"
        = !pyIsNull (.obj [("email", .str "c@example.com")])) ∧
    (hasHeader (buildHeaders (.str "tok") (.obj [("email", .str "c@example.com")])) "Authorization"
        = pyTruthy (.str "tok")) ∧
    (pyIsNull (.str "tok") = true →
      hasHeader (buildHeaders (.str "tok") (.obj [("email", .str "c@example.com")])) "Authorization"
        = false) :=
  request_header_discipline (.str "tok") (.obj [("email", .str "c@example.com")])

/-- C10: a successful `authenticate` changes nothing but `_auth_token`, and
a successful `generate_customer_token` changes nothing but
`_customer_auth_token` — base URL, credentials, the session handle and the
other token slot are preserved by each. -/
theorem auth_frame_conditions (transport : Transport) (st : ClientState) :
    (∀ st', (authenticate transport st).2 = .ok st' →
      st'.base_url = st.base_url ∧ st'.email = st.email ∧ st'.password = st.password ∧
      st'.session = st.session ∧ st'.customer_auth_token = st.customer_auth_token) ∧
    (∀ ce st', (generate_customer_token transport st ce).2 = .ok st' →
      st'.base_url = st.base_url ∧ st'.email = st.email ∧ st'.password = st.password ∧
      st'.session = st.session ∧ st'.auth_token = st.auth_token) := by
  constructor
  · intro st' h
    simp only [authenticate] at h
    split at h
    · exact absurd h (by simp)
    · split at h
      · exact absurd h (by simp)
      · split at h
        · cases h with
          | refl => exact ⟨rfl, rfl, rfl, rfl, rfl⟩
        · exact absurd h (by simp)
  · intro ce st' h
    simp only [generate_customer_token] at h
    split at h
    · exact absurd h (by simp)
    · split at h
      · exact absurd h (by simp)
      · split at h
        · cases h with
          | refl => exact ⟨rfl, rfl, rfl, rfl, rfl⟩
        · exact absurd h (by simp)

/-- Witness for the C10 theorem: both calls succeed against the concrete
token-returning transport and the frame equalities hold. -/
theorem auth_frame_conditions_witness :
    ((authenticate transportTokenOk clientStart).2 =
        .ok { clientStart with auth_token := .str "ct" } ∧
      ((generate_customer_token transportTokenOk clientStart "c@example.com").2 =
        .ok { clientStart with customer_auth_token := .str "ct" })) ∧
    ({ clientStart with auth_token := Json.str "ct" } : ClientState).customer_auth_token
        = clientStart.customer_auth_token ∧
    ({ clientStart with customer_auth_token := Json.str "ct" } : ClientState).auth_token
        = clientStart.auth_token :=
  ⟨⟨rfl, rfl⟩,
    ((auth_frame_conditions transportTokenOk clientStart).1
      { clientStart with auth_token := .str "ct" } rfl).2.2.2.2,
    ((auth_frame_conditions transportTokenOk clientStart).2 "c@example.com"
      { clientStart with customer_auth_token := .str "ct" } rfl).2.2.2.2⟩

/-- A raw KPI record with an empty attributes list and nothing else beyond
its id. -/
def recEmptyAttrs : Json := .obj [("id", .num 1), ("attributes", .arr [])]

/-- The profile pass A emits for `recEmptyAttrs`. -/
def entryEmptyAttrs : KpiEntry :=
  { kpi_id := .num 1, kpi_name := .null, display_name := .null, category := .null,
    definition := { description := .str "N/A", source_table := .null },
    business_rules := { goal := .null, is_higher_better := .bool false,
                        unit_of_measure := .null } }

/-- C4 counterexample: on a KPI with zero attributes, pass A completes, but
the emitted business_rules block is not all-`None`: `is_higher_better` is
the boolean `False` (the comparison `"".lower() == "more"`), which is a
different value from `None`. -/
theorem empty_attributes_not_all_none_counterexample :
    buildEntry recEmptyAttrs = .ok entryEmptyAttrs ∧
    entryEmptyAttrs.business_rules.is_higher_better = .bool false ∧
    Json.bool false ≠ Json.null :=
  ⟨rfl, rfl, fun h => Json.noConfusion h⟩

/-- C4 (amended): the attribute fold is a pure function of the attributes
value (folding the same list twice gives identical lookup maps), and a KPI
whose attributes list is empty and that pass A completes on yields
business_rules with `goal` and `unit_of_measure` equal to `None` and
`is_higher_better` equal to `False` (not `None`); the concrete
`recEmptyAttrs` shows such a record completes without raising. -/
theorem attribute_fold_deterministic_empty_rules :
    (∀ kpi1 kpi2 : Json,
      jGetD kpi1 "attributes" (.arr []) = jGetD kpi2 "attributes" (.arr []) →
      attrsStage kpi1 = attrsStage kpi2) ∧
    (∀ kpi : Json, ∀ e : KpiEntry, buildEntry kpi = .ok e → attrsStage kpi = .ok [] →
      e.business_rules = { goal := .null, is_higher_better := .bool false,
                           unit_of_measure := .null }) ∧
    buildEntry recEmptyAttrs = .ok entryEmptyAttrs := by
  refine ⟨?_, ?_, rfl⟩
  · intro kpi1 kpi2 h
    unfold attrsStage
    rw [h]
  · intro kpi e hb ha
    have hg : goalOf [] = .ok Json.null := rfl
    have hi : ihbOf [] = .ok (Json.bool false) := rfl
    have hu : uomOf [] = Json.null := rfl
    unfold buildEntry at hb
    simp only [ha, hg, hi, hu] at hb
    split at hb
    · exact absurd hb (by simp)
    · split at hb
      · exact absurd hb (by simp)
      · split at hb
        · exact absurd hb (by simp)
        · split at hb
          · exact absurd hb (by simp)
          · split at hb
            · exact absurd hb (by simp)
            · split at hb
              · exact absurd hb (by simp)
              · cases hb with
                | refl => rfl

/-- Witness for the C4 theorem at the concrete empty-attribute record. -/
theorem attribute_fold_deterministic_empty_rules_witness :
    entryEmptyAttrs.business_rules =
      { goal := Json.null, is_higher_better := Json.bool false,
        unit_of_measure := Json.null } :=
  attribute_fold_deterministic_empty_rules.2.1 recEmptyAttrs entryEmptyAttrs rfl rfl

/-- A record whose attribute fold succeeds is a mapping. -/
theorem attrsStage_ok_obj (kpi : Json) (a : List (Json × Json))
    (h : attrsStage kpi = .ok a) : ∃ fs, kpi = .obj fs := by
  cases kpi with
  | obj fs => exact ⟨fs, rfl⟩
  | null => exact absurd h (by simp [attrsStage, jGetD])
  | bool b => exact absurd h (by simp [attrsStage, jGetD])
  | num q => exact absurd h (by simp [attrsStage, jGetD])
  | str s => exact absurd h (by simp [attrsStage, jGetD])
  | arr xs => exact absurd h (by simp [attrsStage, jGetD])

/-- When the folded Goal attribute is `None` (absent or stored as null),
the goal coercion returns `None` untouched. -/
theorem goalOf_null (attrs : List (Json × Json))
    (h : (pyLookup attrs (.str "Goal")).getD .null = .null) :
    goalOf attrs = .ok .null := by
  unfold goalOf
  rw [h]

/-- When the folded Goal attribute is a non-null value `v`, the goal
coercion is exactly `float(v)` wrapped as a number. -/
theorem goalOf_value (attrs : List (Json × Json)) (v : Json)
    (h : (pyLookup attrs (.str "Goal")).getD .null = v) (hv : v ≠ .null) :
    goalOf attrs = Except.map Json.num (pyFloat v) := by
  unfold goalOf
  rw [h]
  cases v with
  | null => exact absurd rfl hv
  | bool b => cases hf : pyFloat (.bool b) <;> simp [Except.map, hf]
  | num q => cases hf : pyFloat (.num q) <;> simp [Except.map, hf]
  | str s => cases hf : pyFloat (.str s) <;> simp [Except.map, hf]
  | arr xs => cases hf : pyFloat (.arr xs) <;> simp [Except.map, hf]
  | obj fs => cases hf : pyFloat (.obj fs) <;> simp [Except.map, hf]

/-- C5: in pass A, the emitted `business_rules.goal` is `None` exactly when
the folded Goal attribute is `None` (the null passes through untouched),
and otherwise is the float parse of that value; and if the Goal value is
present, non-null and non-numeric (its float parse is a `ValueError`), the
whole record build aborts with that uncaught `ValueError`. -/
theorem goal_coercion (kpi : Json) (attrs : List (Json × Json)) :
    (∀ e : KpiEntry, attrsStage kpi = .ok attrs → buildEntry kpi = .ok e →
      ((pyLookup attrs (.str "Goal")).getD .null = .null →
        e.business_rules.goal = .null) ∧
      (∀ v, (pyLookup attrs (.str "Goal")).getD .null = v → v ≠ .null →
        ∃ q, pyFloat v = .ok q ∧ e.business_rules.goal = .num q)) ∧
    (∀ dd d v, attrsStage kpi = .ok attrs → dataStage kpi = .ok dd →
      defStage dd = .ok d →
      (pyLookup attrs (.str "Goal")).getD .null = v → v ≠ .null →
      pyFloat v = .error .valueError →
      buildEntry kpi = .error .valueError) := by
  constructor
  · intro e ha hb
    constructor
    · intro hnull
      have hg : goalOf attrs = .ok Json.null := goalOf_null attrs hnull
      unfold buildEntry at hb
      simp only [ha, hg] at hb
      split at hb
      · exact absurd hb (by simp)
      · split at hb
        · exact absurd hb (by simp)
        · split at hb
          · exact absurd hb (by simp)
          · split at hb
            · exact absurd hb (by simp)
            · split at hb
              · exact absurd hb (by simp)
              · split at hb
                · exact absurd hb (by simp)
                · split at hb
                  · exact absurd hb (by simp)
                  · cases hb with
                    | refl => rfl
    · intro v hl hv
      have hg : goalOf attrs = Except.map Json.num (pyFloat v) := goalOf_value attrs v hl hv
      unfold buildEntry at hb
      simp only [ha, hg] at hb
      cases hf : pyFloat v with
      | error e2 =>
        rw [hf] at hb
        simp only [Except.map] at hb
        split at hb
        · exact absurd hb (by simp)
        · split at hb
          · exact absurd hb (by simp)
          · split at hb
            · exact absurd hb (by simp)
            · split at hb
              · exact absurd hb (by simp)
              · split at hb
                · exact absurd hb (by simp)
                · split at hb
                  · exact absurd hb (by simp)
                  · exact absurd hb (by simp)
      | ok q =>
        rw [hf] at hb
        simp only [Except.map] at hb
        refine ⟨q, rfl, ?_⟩
        split at hb
        · exact absurd hb (by simp)
        · split at hb
          · exact absurd hb (by simp)
          · split at hb
            · exact absurd hb (by simp)
            · split at hb
              · exact absurd hb (by simp)
              · split at hb
                · exact absurd hb (by simp)
                · split at hb
                  · exact absurd hb (by simp)
                  · split at hb
                    · exact absurd hb (by simp)
                    · cases hb with
                      | refl => rfl
  · intro dd d v ha hd hdef hl hv hf
    obtain ⟨fs, rfl⟩ := attrsStage_ok_obj kpi attrs ha
    have hg : goalOf attrs = Except.map Json.num (pyFloat v) := goalOf_value attrs v hl hv
    unfold buildEntry
    simp only [ha, hd, hdef, hg, hf, jGet, Except.map]

/-- The folded attribute lookup of the C3 scenario record. -/
def attrsC3 : List (Json × Json) :=
  [(.str "Goal", .str "42"), (.str "GI", .str "More")]

/-- Witness for the C5 theorem at the scenario record, whose Goal "42"
parses to the number 42. -/
theorem goal_coercion_witness :
    ∃ q, pyFloat (.str "42") = .ok q ∧ entryC3.business_rules.goal = .num q :=
  ((goal_coercion recC3 attrsC3).1 entryC3 rfl rfl).2 (.str "42") rfl
    (fun h => Json.noConfusion h)

/-- The mapping getters never fail with a decode error. -/
theorem jGet_no_decode (j : Json) (k : String) :
    jGet j k ≠ .error .jsonDecodeError := by
  cases j <;> simp [jGet]

theorem jGetD_no_decode (j : Json) (k : String) (d : Json) :
    jGetD j k d ≠ .error .jsonDecodeError := by
  cases j <;> simp [jGetD]

theorem jSubscr_no_decode (j : Json) (k : String) :
    jSubscr j k ≠ .error .jsonDecodeError := by
  cases j <;> simp [jSubscr]
  rename_i fs
  cases lookupStr fs k <;> simp

theorem pyFloat_no_decode (v : Json) : pyFloat v ≠ .error .jsonDecodeError := by
  cases v <;> simp [pyFloat]
  rename_i s
  cases pyFloatStr s <;> simp

theorem pyLower_no_decode (v : Json) : pyLower v ≠ .error .jsonDecodeError := by
  cases v <;> simp [pyLower]

theorem foldAttrs_no_decode (items : List Json) :
    ∀ acc, foldAttrs items acc ≠ .error .jsonDecodeError := by
  induction items with
  | nil => intro acc; simp [foldAttrs]
  | cons it rest ih =>
    intro acc
    unfold foldAttrs
    split
    · rename_i e h1
      intro hc
      cases hc
      exact jGet_no_decode it "attributeName" h1
    · rename_i n h1
      split
      · rename_i e h2
        intro hc
        cases hc
        exact jGet_no_decode it "defaultValue" h2
      · rename_i v h2
        exact ih (pyInsert acc n v)

theorem attrsStage_no_decode (kpi : Json) :
    attrsStage kpi ≠ .error .jsonDecodeError := by
  unfold attrsStage
  split
  · rename_i e h1
    intro hc
    cases hc
    exact jGetD_no_decode kpi "attributes" (.arr []) h1
  · rename_i items h1
    exact foldAttrs_no_decode items []
  · intro hc
    simp at hc

theorem dataStage_no_decode (kpi : Json) :
    dataStage kpi ≠ .error .jsonDecodeError := by
  unfold dataStage
  split
  · rename_i e h1
    intro hc
    cases hc
    exact jGetD_no_decode kpi "data" (.str "\x7b\x7d") h1
  · rename_i s h1
    unfold catchDecode loadsE
    cases json_loads s <;> simp
  · intro hc
    simp at hc

theorem defStage_no_decode (dd : Json) :
    defStage dd ≠ .error .jsonDecodeError := by
  unfold defStage
  split
  · rename_i e h1
    intro hc
    cases hc
    exact jGetD_no_decode dd "formula" (.obj []) h1
  · rename_i f1 h1
    split
    · rename_i e h2
      intro hc
      cases hc
      exact jGetD_no_decode f1 "description" (.str "N/A") h2
    · rename_i desc h2
      split
      · rename_i e h3
        simp at h3
      · rename_i f2 h3
        split
        · rename_i e h4
          intro hc
          cases hc
          exact jGetD_no_decode f2 "data_source" (.obj []) h4
        · rename_i ds h4
          split
          · rename_i e h5
            intro hc
            cases hc
            exact jGet_no_decode ds "table" h5
          · simp

theorem goalOf_no_decode (attrs : List (Json × Json)) :
    goalOf attrs ≠ .error .jsonDecodeError := by
  unfold goalOf
  split
  · simp
  · split
    · rename_i e h1
      intro hc
      cases hc
      exact pyFloat_no_decode _ h1
    · simp

theorem ihbOf_no_decode (attrs : List (Json × Json)) :
    ihbOf attrs ≠ .error .jsonDecodeError := by
  unfold ihbOf
  split
  · rename_i e h1
    intro hc
    cases hc
    exact pyLower_no_decode _ h1
  · simp

theorem buildEntry_no_decode (kpi : Json) :
    buildEntry kpi ≠ .error .jsonDecodeError := by
  unfold buildEntry
  split
  · rename_i e h1
    intro hc
    cases hc
    exact attrsStage_no_decode kpi h1
  · rename_i attrs h1
    split
    · rename_i e h2
      intro hc
      cases hc
      exact dataStage_no_decode kpi h2
    · rename_i dd h2
      split
      · rename_i e h3
        intro hc
        cases hc
        exact jGet_no_decode kpi "id" h3
      · rename_i kidv h3
        split
        · rename_i e h4
          intro hc
          cases hc
          exact jGet_no_decode kpi "name" h4
        · rename_i namev h4
          split
          · rename_i e h5
            intro hc
            cases hc
            exact jGet_no_decode kpi "displayName" h5
          · rename_i dispv h5
            split
            · rename_i e h6
              intro hc
              cases hc
              exact jGet_no_decode kpi "category" h6
            · rename_i catv h6
              split
              · rename_i e h7
                intro hc
                cases hc
                exact defStage_no_decode dd h7
              · rename_i dt h7
                split
                · rename_i e h8
                  intro hc
                  cases hc
                  exact goalOf_no_decode attrs h8
                · rename_i goal h8
                  split
                  · rename_i e h9
                    intro hc
                    cases hc
                    exact ihbOf_no_decode attrs h9
                  · simp

/-- Pass A as a whole never surfaces a decode error. -/
theorem passAGo_no_decode (kpis : List Json) :
    ∀ m, passAGo kpis m ≠ .error .jsonDecodeError := by
  induction kpis with
  | nil => intro m; simp [passAGo]
  | cons kpi rest ih =>
    intro m
    unfold passAGo
    split
    · rename_i e h1
      intro hc
      cases hc
      exact buildEntry_no_decode kpi h1
    · rename_i e h1
      split
      · rename_i err h2
        intro hc
        cases hc
        exact jSubscr_no_decode kpi "id" h2
      · rename_i k h2
        exact ih (insertEntry m k e)

/-- C6: pass A parses each record's `data` field as JSON; when that parse
fails the stage substitutes the empty object, and no `json.JSONDecodeError`
ever escapes the KPI-map construction (for any input list). -/
theorem data_parse_never_propagates :
    (∀ kpis : List Json, passA kpis ≠ .error .jsonDecodeError) ∧
    (∀ kpi : Json, ∀ s : String,
      jGetD kpi "data" (.str "\x7b\x7d") = .ok (.str s) → json_loads s = none →
      dataStage kpi = .ok (.obj [])) := by
  constructor
  · intro kpis
    exact passAGo_no_decode kpis []
  · intro kpi s h1 h2
    simp only [dataStage, h1, catchDecode, loadsE, h2]

/-- Witness for the C6 theorem: a record whose `data` field holds a
non-JSON string parses to the empty object. -/
theorem data_parse_never_propagates_witness :
    dataStage (.obj [("data", .str "not json")]) = .ok (.obj []) :=
  data_parse_never_propagates.2 (.obj [("data", .str "not json")]) "not json" rfl rfl

/-! ### Python equality as an equivalence on hashable values -/

/-- Python equality is symmetric (stated with one hashable side, which is
all the set operations need). -/
theorem pyEq_symm_hash (a b : Json) (hb : jHashable b = true) : pyEq a b = pyEq b a := by
  cases a <;> cases b <;> simp_all [pyEq, jHashable, beq_iff_eq] <;> exact eq_comm

/-- A value Python-equal to a hashable value is itself hashable. -/
theorem pyEq_hashable_right (a b : Json) (ha : jHashable a = true)
    (h : pyEq a b = true) : jHashable b = true := by
  cases a <;> cases b <;> simp_all [pyEq, jHashable]

/-- Python equality is transitive across a shared hashable comparand. -/
theorem pyEq_trans_hash (x c y : Json) (hx : jHashable x = true)
    (h1 : pyEq c x = true) (h2 : pyEq c y = true) : pyEq x y = true := by
  cases x <;> cases c <;> cases y <;> simp_all [pyEq, jHashable, beq_iff_eq]
  rename_i b1 q b2
  cases b1 <;> cases b2 <;> simp_all

/-- Membership test of the `set` model: some element already present is
Python-equal to `c`. -/
def anyEq (l : List Json) (c : Json) : Bool := l.any (fun y => pyEq y c)

/-- Element multiplicity in the `set` model: an element of the input occurs
exactly once in the set unless it was already seen, and never otherwise. -/
theorem pySetAux_count (xs : List Json) :
    ∀ seen S, (∀ y ∈ seen, jHashable y = true) → pySetAux xs seen = .ok S →
    ∀ c, pyCount c S =
      if 0 < pyCount c xs then (if anyEq seen c then 0 else 1) else 0 := by
  induction xs with
  | nil =>
    intro seen S hseen hset c
    simp only [pySetAux] at hset
    cases hset with
    | refl => simp [pyCount]
  | cons x rest ih =>
    intro seen S hseen hset c
    unfold pySetAux at hset
    split at hset
    · rename_i hx
      split at hset
      · exact absurd hset (by simp)
      · rename_i S2 h2
        cases hset with
        | refl =>
          have hseen2 : ∀ y ∈ x :: seen, jHashable y = true := by
            intro y hy
            rcases List.mem_cons.mp hy with hy | hy
            · exact hy ▸ hx
            · exact hseen y hy
          have IH := ih (x :: seen) S2 hseen2 h2 c
          by_cases hcx : pyEq c x = true
          · have hxc : pyEq x c = true := by
              rw [← pyEq_symm_hash c x hx]; exact hcx
            have hIH0 : pyCount c S2 = 0 := by
              rw [IH]
              simp [anyEq, hxc]
            have hcnt : pyCount c (x :: rest) = pyCount c rest + 1 := by
              simp [pyCount, List.countP_cons, hcx]
            by_cases hsx : seen.any (fun y => pyEq y x) = true
            · have hac : anyEq seen c = true := by
                rcases List.any_eq_true.mp hsx with ⟨y, hy, hyx⟩
                have hy2 : jHashable y = true := hseen y hy
                have hxy : pyEq x y = true := by
                  rw [← pyEq_symm_hash y x hx]; exact hyx
                have : pyEq y c = true := pyEq_trans_hash y x c hy2 hxy hxc
                exact List.any_eq_true.mpr ⟨y, hy, this⟩
              rw [if_pos hsx]
              rw [hIH0, hcnt]
              simp [hac]
            · have hac : anyEq seen c = false := by
                by_contra hcon
                rw [Bool.not_eq_false] at hcon
                rcases List.any_eq_true.mp hcon with ⟨y, hy, hyc⟩
                have hy2 : jHashable y = true := hseen y hy
                have hhc : jHashable c = true := pyEq_hashable_right x c hx hxc
                have hcy : pyEq c y = true := by
                  rw [pyEq_symm_hash c y hy2]; exact hyc
                have hxy2 : pyEq x y = true := pyEq_trans_hash x c y hx hcx hcy
                have hyx2 : pyEq y x = true := by
                  rw [pyEq_symm_hash y x hx]; exact hxy2
                exact hsx (List.any_eq_true.mpr ⟨y, hy, hyx2⟩)
              rw [if_neg (by simp [hsx]), hcnt]
              have hl : pyCount c (x :: S2) = pyCount c S2 + 1 := by
                simp [pyCount, List.countP_cons, hcx]
              rw [hl, hIH0, hac]
              simp
          · have hcx2 : pyEq c x = false := by
              rw [Bool.not_eq_true] at hcx
              exact hcx
            have hxc : pyEq x c = false := by
              rw [← pyEq_symm_hash c x hx]; exact hcx2
            have hIH : pyCount c S2 =
                if 0 < pyCount c rest then (if anyEq seen c then 0 else 1) else 0 := by
              rw [IH]
              simp [anyEq, hxc]
            have hcnt : pyCount c (x :: rest) = pyCount c rest := by
              simp [pyCount, List.countP_cons, hcx2]
            rw [hcnt]
            by_cases hsx : seen.any (fun y => pyEq y x) = true
            · rw [if_pos hsx]
              exact hIH
            · rw [if_neg hsx]
              simp [pyCount, List.countP_cons, hcx2] at hIH ⊢
              exact hIH
    · exact absurd hset (by simp)

/-- Python `set(xs)` holds each value of `xs` exactly once. -/
theorem pySet_count (xs S : List Json) (h : pySet xs = .ok S) (c : Json) :
    pyCount c S = if 0 < pyCount c xs then 1 else 0 := by
  have hc := pySetAux_count xs [] S (by intro y hy; cases hy) h c
  simpa [anyEq] using hc

/-- The three contexts of the deduplication scenario, carrying function
codes A, A and B. -/
def ctxAAB : List Json :=
  [.obj [("functionCode", .str "A")], .obj [("functionCode", .str "A")],
   .obj [("functionCode", .str "B")]]

/-- C7: the dictionary-fetch stage issues exactly one `get_dictionary` call
per distinct `functionCode` value among the contexts — each code occurring
in the contexts appears exactly once among the issued calls, an absent code
never — and on the concrete A,A,B contexts exactly the two calls A and B
are issued, not three. -/
theorem dictionary_fetch_deduplicated :
    (∀ contexts codes S, functionCodes contexts = .ok codes → pySet codes = .ok S →
      ∀ c, (0 < pyCount c codes → pyCount c S = 1) ∧
           (pyCount c codes = 0 → pyCount c S = 0)) ∧
    dictionaryCalls ctxAAB = .ok [.str "A", .str "B"] := by
  constructor
  · intro contexts codes S hf hs c
    have h := pySet_count codes S hs c
    constructor
    · intro hpos
      rw [h, if_pos hpos]
    · intro hz
      rw [h, hz]
      simp
  · rfl

/-- Witness for the C7 theorem on the A,A,B scenario: code A occurs among
the issued calls exactly once, and a code Z that no context carries is
never fetched. -/
theorem dictionary_fetch_deduplicated_witness :
    pyCount (.str "A") [Json.str "A", Json.str "B"] = 1 ∧
    pyCount (.str "Z") [Json.str "A", Json.str "B"] = 0 :=
  ⟨(dictionary_fetch_deduplicated.1 ctxAAB
      [Json.str "A", Json.str "A", Json.str "B"] [Json.str "A", Json.str "B"]
      rfl rfl (.str "A")).1 (by decide),
   (dictionary_fetch_deduplicated.1 ctxAAB
      [Json.str "A", Json.str "A", Json.str "B"] [Json.str "A", Json.str "B"]
      rfl rfl (.str "Z")).2 (by decide)⟩

/-- Appending one KPI record appends its `functionName` to the raw name
list. -/
theorem kpiFunctionNamesRaw_append (kpis : List Json) (kpi : Json) (fnX : Json)
    (hk : jSubscr kpi "functionName" = .ok fnX) :
    ∀ raw, kpiFunctionNamesRaw kpis = .ok raw →
      kpiFunctionNamesRaw (kpis ++ [kpi]) = .ok (raw ++ [fnX]) := by
  induction kpis with
  | nil =>
    intro raw hraw
    simp only [kpiFunctionNamesRaw] at hraw
    cases hraw with
    | refl =>
      simp [kpiFunctionNamesRaw, hk]
  | cons k rest ih =>
    intro raw hraw
    unfold kpiFunctionNamesRaw at hraw
    split at hraw
    · exact absurd hraw (by simp)
    · rename_i f h1
      split at hraw
      · exact absurd hraw (by simp)
      · rename_i tail h2
        cases hraw with
        | refl =>
          rw [List.cons_append]
          simp only [kpiFunctionNamesRaw, h1, ih tail h2]
          simp

/-- Appending one hashable element to the input of the `set` model appends
it to the output exactly when nothing Python-equal came before. -/
theorem pySetAux_append (cv : Json) (hc : jHashable cv = true) (xs : List Json) :
    ∀ seen S, pySetAux xs seen = .ok S →
      pySetAux (xs ++ [cv]) seen =
        .ok (S ++ (if anyEq xs cv || anyEq seen cv then [] else [cv])) := by
  induction xs with
  | nil =>
    intro seen S hset
    simp only [pySetAux] at hset
    cases hset with
    | refl =>
      simp [pySetAux, hc, anyEq]
  | cons x rest ih =>
    intro seen S hset
    unfold pySetAux at hset
    split at hset
    · rename_i hx
      split at hset
      · exact absurd hset (by simp)
      · rename_i S2 h2
        cases hset with
        | refl =>
          rw [List.cons_append]
          unfold pySetAux
          rw [if_pos hx]
          rw [ih (x :: seen) S2 h2]
          have hb : (anyEq rest cv || anyEq (x :: seen) cv) =
              (anyEq (x :: rest) cv || anyEq seen cv) := by
            simp [anyEq, List.any_cons]
            cases pyEq x cv <;> cases rest.any (fun y => pyEq y cv) <;>
              cases seen.any (fun y => pyEq y cv) <;> simp
          rw [hb]
          cases hsx : seen.any (fun y => pyEq y x) <;> simp
    · exact absurd hset (by simp)

/-- `function_info` over a concatenation of name lists concatenates the
contributions. -/
theorem flatInfo_append (m : List (Json × List Json)) (as bs : List Json)
    (o1 o2 : List Json) (h1 : flatInfo m as = .ok o1) (h2 : flatInfo m bs = .ok o2) :
    flatInfo m (as ++ bs) = .ok (o1 ++ o2) := by
  induction as generalizing o1 with
  | nil =>
    simp only [flatInfo] at h1
    cases h1 with
    | refl => simpa using h2
  | cons fn rest ih =>
    unfold flatInfo at h1
    split at h1
    · exact absurd h1 (by simp)
    · rename_i xs hx
      split at h1
      · exact absurd h1 (by simp)
      · rename_i tail ht
        cases h1 with
        | refl =>
          rw [List.cons_append]
          unfold flatInfo
          rw [hx, ih tail ht]
          simp

/-- `function_info` only reads the grouping at the joined names. -/
theorem flatInfo_congr (m1 m2 : List (Json × List Json)) (names : List Json)
    (h : ∀ fn ∈ names, lookupGroup m1 fn = lookupGroup m2 fn) :
    flatInfo m1 names = flatInfo m2 names := by
  induction names with
  | nil => rfl
  | cons fn rest ih =>
    unfold flatInfo
    unfold infoForName
    rw [h fn (List.mem_cons_self fn rest)]
    rw [ih (fun f hf => h f (List.mem_cons_of_mem fn hf))]

/-- Appending one well-formed Functions blob extends its group. -/
theorem functionsByName_append (blob : Json) (nY : Json) (fl : List Json)
    (hn : jSubscr blob "name" = .ok nY) (hh : jHashable nY = true)
    (hfl : jGetD blob "industry_function" (.arr []) = .ok (.arr fl)) :
    ∀ (fs : List Json) (m m0 : List (Json × List Json)),
      functionsByName fs m = .ok m0 →
      functionsByName (fs ++ [blob]) m = .ok (extendGroup m0 nY fl) := by
  intro fs
  induction fs with
  | nil =>
    intro m m0 h
    simp only [functionsByName] at h
    cases h with
    | refl => simp [functionsByName, hn, hh, hfl]
  | cons b rest ih =>
    intro m m0 h
    unfold functionsByName at h
    split at h
    · exact absurd h (by simp)
    · rename_i n h1
      split at h
      · rename_i hhn
        split at h
        · exact absurd h (by simp)
        · rename_i items h2
          rw [List.cons_append]
          unfold functionsByName
          simp only [h1, hhn, if_true, h2]
          exact ih (extendGroup m n items) m0 h
        · exact absurd h (by simp)
      · exact absurd h (by simp)

/-- Extending a group with a hashable key keeps every key hashable. -/
theorem extendGroup_keys (m : List (Json × List Json)) (k : Json) (v : List Json)
    (hk : jHashable k = true) (hm : ∀ p ∈ m, jHashable p.1 = true) :
    ∀ p ∈ extendGroup m k v, jHashable p.1 = true := by
  induction m with
  | nil =>
    intro p hp
    simp [extendGroup] at hp
    subst hp
    exact hk
  | cons q rest ih =>
    intro p hp
    unfold extendGroup at hp
    rcases q with ⟨k0, l0⟩
    split at hp
    · rcases List.mem_cons.mp hp with h | h
      · rw [h]
        exact hm (k0, l0) (List.mem_cons_self _ _)
      · exact hm p (List.mem_cons_of_mem _ h)
    · rcases List.mem_cons.mp hp with h | h
      · rw [h]
        exact hm (k0, l0) (List.mem_cons_self _ _)
      · exact ih (fun r hr => hm r (List.mem_cons_of_mem _ hr)) p h

/-- Every group key produced from the Functions feed is hashable. -/
theorem functionsByName_keys (fs : List Json) :
    ∀ m m0, (∀ p ∈ m, jHashable p.1 = true) → functionsByName fs m = .ok m0 →
      ∀ p ∈ m0, jHashable p.1 = true := by
  induction fs with
  | nil =>
    intro m m0 hm h
    simp only [functionsByName] at h
    cases h with
    | refl => exact hm
  | cons b rest ih =>
    intro m m0 hm h
    unfold functionsByName at h
    split at h
    · exact absurd h (by simp)
    · rename_i n h1
      split at h
      · rename_i hhn
        split at h
        · exact absurd h (by simp)
        · rename_i items h2
          exact ih (extendGroup m n items) m0 (extendGroup_keys m n items hhn hm) h
        · exact absurd h (by simp)
      · exact absurd h (by simp)

/-- Extending the grouping under a key unrelated to `fn` leaves the lookup
at `fn` unchanged. -/
theorem lookupGroup_extend_ne (k : Json) (v : List Json) (fn : Json)
    (hk : jHashable k = true) (hne : pyEq k fn = false) :
    ∀ m : List (Json × List Json), (∀ p ∈ m, jHashable p.1 = true) →
      lookupGroup (extendGroup m k v) fn = lookupGroup m fn := by
  intro m
  induction m with
  | nil =>
    intro hm
    simp [extendGroup, lookupGroup, List.find?, hne]
  | cons q rest ih =>
    intro hm
    rcases q with ⟨k0, l0⟩
    unfold extendGroup
    by_cases h0 : pyEq k0 k = true
    · rw [if_pos h0]
      have hk0 : jHashable k0 = true := hm (k0, l0) (List.mem_cons_self _ _)
      have h0f : pyEq k0 fn = false := by
        by_contra hcon
        rw [Bool.not_eq_false] at hcon
        exact absurd (pyEq_trans_hash k k0 fn hk h0 hcon) (by simp [hne])
      simp [lookupGroup, List.find?, h0f]
    · rw [if_neg h0]
      by_cases h0f : pyEq k0 fn = true
      · simp [lookupGroup, List.find?, h0f]
      · have e1 : pyEq k0 fn = false := by
          rw [Bool.not_eq_true] at h0f
          exact h0f
        simp only [lookupGroup, List.find?, e1]
        exact ih (fun r hr => hm r (List.mem_cons_of_mem _ hr))

/-- C8: join misses are silent on both sides: appending a KPI whose
`functionName` has no group leaves `function_info` unchanged and error-free,
and appending a Function blob whose name matches no KPI `functionName`
likewise contributes zero entries. -/
theorem function_join_miss_silent :
    (∀ kpis functions kpi fnX out m,
      functionInfo kpis functions = .ok out →
      jSubscr kpi "functionName" = .ok fnX → jHashable fnX = true →
      functionsByName functions [] = .ok m → lookupGroup m fnX = none →
      functionInfo (kpis ++ [kpi]) functions = .ok out) ∧
    (∀ kpis functions blob nY fl names out,
      functionInfo kpis functions = .ok out →
      jSubscr blob "name" = .ok nY → jHashable nY = true →
      jGetD blob "industry_function" (.arr []) = .ok (.arr fl) →
      kpiFunctionNames kpis = .ok names →
      (∀ fn ∈ names, pyEq nY fn = false) →
      functionInfo kpis (functions ++ [blob]) = .ok out) := by
  constructor
  · intro kpis functions kpi fnX out m hout hfn hh hm hlk
    unfold functionInfo at hout
    split at hout
    · exact absurd hout (by simp)
    · rename_i names hnames
      split at hout
      · exact absurd hout (by simp)
      · rename_i m2 hm2
        obtain rfl : m2 = m := (Except.ok.inj (hm.symm.trans hm2)).symm
        unfold kpiFunctionNames at hnames
        split at hnames
        · exact absurd hnames (by simp)
        · rename_i raw hraw
          have hraw2 := kpiFunctionNamesRaw_append kpis kpi fnX hfn raw hraw
          have hset2 := pySetAux_append fnX hh raw [] names hnames
          unfold functionInfo kpiFunctionNames
          rw [hraw2]
          simp only [pySet] at hset2 ⊢
          rw [hset2]
          simp only [anyEq, List.any_nil, Bool.or_false]
          by_cases hdup : (raw.any fun y => pyEq y fnX) = true
          · simp only [hdup, if_true, List.append_nil]
            simp only [hm]
            exact hout
          · simp only [Bool.not_eq_true] at hdup
            simp only [hdup, Bool.false_eq_true, if_false]
            simp only [hm]
            have hlast : flatInfo m2 [fnX] = .ok [] := by
              simp [flatInfo, infoForName, hlk, mapProj]
            have hap := flatInfo_append m2 names [fnX] out [] hout hlast
            simpa using hap
  · intro kpis functions blob nY fl names out hout hbn hh hfl hnames hne
    unfold functionInfo at hout ⊢
    simp only [hnames] at hout ⊢
    split at hout
    · exact absurd hout (by simp)
    · rename_i m0 hm0
      have happ := functionsByName_append blob nY fl hbn hh hfl functions [] m0 hm0
      simp only [happ]
      have hkeys : ∀ p ∈ m0, jHashable p.1 = true :=
        functionsByName_keys functions [] m0 (by intro p hp; cases hp) hm0
      have hcong : flatInfo (extendGroup m0 nY fl) names = flatInfo m0 names := by
        apply flatInfo_congr
        intro fn hfn
        exact lookupGroup_extend_ne nY fl fn hh (hne fn hfn) m0 hkeys
      rw [hcong]
      exact hout

/-- A KPI whose function name is A, a KPI whose function name is X, and
Function blobs named B and C — none of which join. -/
def kpiA : Json := .obj [("functionName", .str "A")]

def kpiX : Json := .obj [("functionName", .str "X")]

def blobB : Json := .obj [("name", .str "B"), ("industry_function", .arr [])]

def blobC : Json := .obj [("name", .str "C"), ("industry_function", .arr [])]

/-- Witness for the C8 theorem: adding the unmatched KPI `kpiX` and the
unmatched Function blob `blobC` each leave `function_info` unchanged (still
the error-free empty join). -/
theorem function_join_miss_silent_witness :
    functionInfo ([kpiA] ++ [kpiX]) [blobB] = .ok [] ∧
    functionInfo [kpiA] ([blobB] ++ [blobC]) = .ok [] :=
  ⟨function_join_miss_silent.1 [kpiA] [blobB] kpiX (.str "X") []
      [(Json.str "B", [])] rfl rfl rfl rfl rfl,
   function_join_miss_silent.2 [kpiA] [blobB] blobC (.str "C") [] [.str "A"] []
      rfl rfl rfl rfl rfl
      (by
        intro fn hfn
        rw [List.mem_singleton] at hfn
        subst hfn
        rfl)⟩
